import Mathlib

/-!
Shallow embedding of the ConnectWise Automate API client
(`src/automate-client.ts`) and proofs about its specification.

JSON-like values are modelled by `Automate.Value`; records are association
lists from field names to values.  Date-valued fields are modelled by the
`vDate` constructor carrying the parsed millisecond timestamp (strings the
JS `Date` constructor would fail to parse are modelled by non-date values,
for which `parseDate` returns `none`, matching the always-false comparison
against an Invalid Date).
-/

namespace Automate

/-- A single quote character, used when assembling condition strings. -/
def sq : String := String.singleton (Char.ofNat 39)

inductive Value where
  | vNull
  | vBool (b : Bool)
  | vNum (n : Int)
  | vStr (s : String)
  | vDate (t : Nat)
  | vObj (fields : List (String × Value))

/-- A record returned by the API: field name / value pairs. -/
abbrev Rec := List (String × Value)

/-- Property access `c[k]`; a missing key is JS `undefined`, modelled as `none`. -/
def getField (c : Rec) (k : String) : Option Value :=
  (c.find? (fun p => p.1 == k)).map (·.2)

/-- JS truthiness of a value. -/
def truthy : Value → Bool
  | .vNull => false
  | .vBool b => b
  | .vNum n => n != 0
  | .vStr s => s != ""
  | .vDate _ => true
  | .vObj _ => true

/-- Date parsing, `new Date(v)` as used for comparisons: a parseable date yields its
timestamp, anything else behaves like an Invalid Date (`none`). -/
def parseDate : Value → Option Nat
  | .vDate t => some t
  | _ => none

/-- JS template-literal stringification of a value. -/
def jsShow : Value → String
  | .vNull => "null"
  | .vBool b => if b then "true" else "false"
  | .vNum n => toString n
  | .vStr s => s
  | .vDate t => toString t
  | .vObj _ => "[object Object]"

/-- Whitelist of fields kept for regular computer list queries
(`COMPACT_FIELDS` in the source). -/
def COMPACT_FIELDS : List String :=
  ["Id", "ComputerName", "Client", "Location", "Type",
   "OperatingSystemName", "Status", "RemoteAgentLastContact",
   "LastUserName", "LoggedInUsers", "LocalIPAddress", "Comment",
   "IsRebootNeeded", "IsVirtualMachine", "IsMaintenanceModeEnabled",
   "TotalMemory", "FreeMemory", "CpuUsage", "LastHeartbeat",
   "SerialNumber", "AssetTag", "VirusScanner", "IsHeartbeatRunning"]

/-- Minimal fields intended for the `getComputersSummary` aggregation
(`SUMMARY_FIELDS` in the source). -/
def SUMMARY_FIELDS : List String := ["Client", "Status", "OperatingSystemName"]

/-- Compaction, `compactComputer`: keep only the whitelisted entries of a record. -/
def compactComputer (c : Rec) : Rec :=
  c.filter (fun p => COMPACT_FIELDS.contains p.1)

/-- ASCII lower-casing of a character (what `toLowerCase` does on the
strings this client handles). -/
def lowerChar (c : Char) : Char :=
  if 65 ≤ c.toNat ∧ c.toNat ≤ 90 then Char.ofNat (c.toNat + 32) else c

/-- Lower-casing, `raw.toLowerCase()`. -/
def toLowerStr (s : String) : String := String.mk (s.data.map lowerChar)

/-- Does the first list begin the second? -/
def beginsWith : List Char → List Char → Bool
  | [], _ => true
  | _ :: _, [] => false
  | a :: as, b :: bs => a == b && beginsWith as bs

/-- Substring occurrence test on character lists. -/
def containsSub (needle : List Char) : List Char → Bool
  | [] => needle.isEmpty
  | c :: rest => beginsWith needle (c :: rest) || containsSub needle rest

/-- JS `s.includes(pat)`. -/
def includes (s pat : String) : Bool := containsSub pat.data s.data

/-- OS normalization, `normaliseOS` from the source: case-insensitive substring matching in a
fixed priority order; empty string maps to "Unknown"; an unrecognized
non-empty string passes through unchanged. -/
def normaliseOS (raw : String) : String :=
  let s := toLowerStr raw
  if includes s "windows 11" then "Windows 11"
  else if includes s "windows 10" then "Windows 10"
  else if includes s "windows server 2022" then "Windows Server 2022"
  else if includes s "windows server 2019" then "Windows Server 2019"
  else if includes s "windows server 2016" then "Windows Server 2016"
  else if includes s "windows server 2012" then "Windows Server 2012"
  else if includes s "windows server" then "Windows Server (other)"
  else if includes s "windows" then "Windows (other)"
  else if includes s "mac" || includes s "darwin" then "macOS"
  else if includes s "linux" || includes s "ubuntu" || includes s "debian"
       || includes s "centos" || includes s "rhel" then "Linux"
  else if s == "" then "Unknown"
  else raw

/-- A list-endpoint response body: either a bare array of records, an
object (whose `items` key may be present or absent), or a nullish body. -/
inductive RespData where
  | arr (records : List Rec)
  | obj (items : Option (List Rec))
  | nullResp

/-- Response unwrapping, `Array.isArray(batch) ? batch : (batch?.items ?? [])`. -/
def unwrap : RespData → List Rec
  | .arr rs => rs
  | .obj (some rs) => rs
  | .obj none => []
  | .nullResp => []

/-- Query parameters assembled by the private `get` helper.  `condition`
and `orderBy` are added only when truthy (a supplied empty string is
falsy in JS and is skipped). -/
def getParams (condition : Option String) (pageSize page : Nat)
    (orderBy : Option String) : List (String × String) :=
  [("pageSize", toString pageSize), ("page", toString page)]
  ++ (match condition with
      | some c => if c == "" then [] else [("condition", c)]
      | none => [])
  ++ (match orderBy with
      | some o => if o == "" then [] else [("orderBy", o)]
      | none => [])

/-- The request a client method hands to the `get` helper. -/
structure FetchSpec where
  endpoint : String
  condition : Option String
  pageSize : Nat
  page : Nat
  orderBy : Option String
deriving DecidableEq

/-!  Pagination engine (`getAllPages`).  The remote is abstracted as a
function from page number to the items of that page; the loop body is the
`while (true)` loop of the source, with explicit fuel to express it as a total
function (the source loop has no bound; `none` means the fuel ran out
before a short page was seen).  Besides the accumulated records we record
the list of page numbers requested, each with the fixed page size 1000. -/

def getAllPagesAux (fetch : Nat → List Rec) :
    Nat → Nat → List Rec → List Nat → Option (List Rec × List Nat)
  | 0, _, _, _ => none
  | fuel + 1, page, acc, pages =>
    let items := fetch page
    let acc' := acc ++ items
    let pages' := pages ++ [page]
    if items.length < 1000 then some (acc', pages')
    else getAllPagesAux fetch fuel (page + 1) acc' pages'

/-- Run the `getAllPages` loop from page 1 with empty accumulators. -/
def getAllPages (fetch : Nat → List Rec) (fuel : Nat) :
    Option (List Rec × List Nat) :=
  getAllPagesAux fetch fuel 1 [] []

/-- A remote dataset of records served in pages of (at most) 1000,
1-based page numbering. -/
def pageOf (records : List Rec) (page : Nat) : List Rec :=
  (records.drop ((page - 1) * 1000)).take 1000

/-- Post-processing step of `getComputers`: when `compact` is set, a bare
array is mapped through `compactComputer`; any other response shape is
returned unchanged. -/
def getComputersPost (compact : Bool) (data : RespData) : RespData :=
  if compact then
    match data with
    | .arr rs => .arr (rs.map compactComputer)
    | d => d
  else data

/-!  Token manager and request gateway. -/

structure ClientState where
  accessToken : Option String
  tokenExpiry : Option Nat
deriving DecidableEq

/-- Negation of `!this.accessToken || !this.tokenExpiry || now >= this.tokenExpiry`
(an empty-string token is falsy in JS and forces a login). -/
def tokenFresh (st : ClientState) (now : Nat) : Bool :=
  match st.accessToken, st.tokenExpiry with
  | some tok, some e => tok != "" && decide (now < e)
  | _, _ => false

/-- Trace events of the request gateway: a login exchange, clearing the
cached credential, and a request dispatch carrying the attached bearer
token and the expiry recorded for it at dispatch time. -/
inductive Ev where
  | auth
  | clearCreds
  | send (token : String) (expiry : Nat)
deriving DecidableEq

inductive ReqError where
  | authFailure (msg : String)
  | httpError (status : Nat)
deriving DecidableEq

inductive HttpResp where
  | ok (v : Value)
  | errStatus (status : Nat)

/-- Login exchange, `authenticate()`: exchange credentials for a token (the outcome of the exchange is a parameter) and record expiry as now + 55 minutes in ms. -/
def authenticate (authResult : Except String String) (now : Nat) :
    Except String ClientState :=
  match authResult with
  | .ok tok => .ok ⟨some tok, some (now + 55 * 60 * 1000)⟩
  | .error e => .error e

/-- Token check, `ensureAuthenticated()`: keep a fresh token, otherwise perform a login. -/
def ensureAuthenticated (authResult : Except String String) (now : Nat)
    (st : ClientState) : Except String (ClientState × List Ev) :=
  if tokenFresh st now then .ok (st, [])
  else
    match authenticate authResult now with
    | .ok st' => .ok (st', [Ev.auth])
    | .error e => .error e

/-- Resubmission of a request whose `_retry` flag is already set: the
request interceptor runs again, the request is sent once, and any error
response (401 included) is rejected to the caller. -/
def resubmit (server : Nat → HttpResp) (authResult : Except String String)
    (now : Nat) (st : ClientState) :
    Except ReqError Value × ClientState × List Ev :=
  match ensureAuthenticated authResult now st with
  | .error e => (.error (.authFailure e), st, [])
  | .ok (st1, ev1) =>
    let tok := st1.accessToken.getD ""
    let exp := st1.tokenExpiry.getD 0
    match server 1 with
    | .ok v => (.ok v, st1, ev1 ++ [Ev.send tok exp])
    | .errStatus s => (.error (.httpError s), st1, ev1 ++ [Ev.send tok exp])

/-- One request through both interceptors: ensure a token, attach it,
send; on a 401 with `_retry` unset, set the flag, clear the credential,
re-authenticate, reattach and resubmit exactly once; reject any other
error.  `server n` is the response to the n-th submission of this
request. -/
def runRequest (server : Nat → HttpResp) (authResult : Except String String)
    (now : Nat) (st : ClientState) :
    Except ReqError Value × ClientState × List Ev :=
  match ensureAuthenticated authResult now st with
  | .error e => (.error (.authFailure e), st, [])
  | .ok (st1, ev1) =>
    let tok := st1.accessToken.getD ""
    let exp := st1.tokenExpiry.getD 0
    match server 0 with
    | .ok v => (.ok v, st1, ev1 ++ [Ev.send tok exp])
    | .errStatus s =>
      if s = 401 then
        match authenticate authResult now with
        | .error e =>
          (.error (.authFailure e), ⟨none, none⟩,
            ev1 ++ [Ev.send tok exp, Ev.clearCreds, Ev.auth])
        | .ok st2 =>
          let out := resubmit server authResult now st2
          (out.1, out.2.1,
            ev1 ++ [Ev.send tok exp, Ev.clearCreds, Ev.auth] ++ out.2.2)
      else (.error (.httpError s), st1, ev1 ++ [Ev.send tok exp])

/-!  Offline / stale detection. -/

/-- Condition string of `getOfflineComputers`:
a Status-equals-Offline literal, ANDed with a ClientId equality when one is given. -/
def offlineCondition (clientId : Option Int) : String :=
  match clientId with
  | none => "Status=" ++ sq ++ "Offline" ++ sq
  | some cid => "Status=" ++ sq ++ "Offline" ++ sq ++ " AND ClientId=" ++ toString cid

/-- The request `getOfflineComputers` hands to `get`. -/
def offlineFetchSpec (clientId : Option Int) : FetchSpec :=
  ⟨"/Computers", some (offlineCondition clientId), 1000, 1,
    some "RemoteAgentLastContact asc"⟩

/-- The client-side date filter published by `getOfflineComputers` /
`getStaleComputers`:
`const lastContact = c.RemoteAgentLastContact ? new Date(...) : null;
 return lastContact && lastContact < cutoff;`. -/
def lastContactFilter (cutoff : Nat) (c : Rec) : Bool :=
  match getField c "RemoteAgentLastContact" with
  | none => false
  | some v =>
    if truthy v then
      match parseDate v with
      | some t => decide (t < cutoff)
      | none => false
    else false

/-- Post-processing of `getOfflineComputers` applied to the fetched
response: filter by last contact strictly before
`now - daysOffline * 24*60*60*1000`, truncate to `pageSize`, compact. -/
def getOfflineComputers (now daysOffline : Nat) (pageSize : Nat)
    (resp : RespData) : List Rec :=
  let cutoff := now - daysOffline * 24 * 60 * 60 * 1000
  let list := unwrap resp
  ((list.filter (fun c =>
      match getField c "RemoteAgentLastContact" with
      | none => false
      | some v =>
        if truthy v then
          match parseDate v with
          | some t => decide (t < cutoff)
          | none => false
        else false)).take pageSize).map compactComputer

/-- Condition string of `getStaleComputers`: like the offline one, with an
optional Type-equality part (skipped for a falsy/empty filter). -/
def staleCondition (clientId : Option Int) (typeFilter : Option String) : String :=
  offlineCondition clientId
  ++ (match typeFilter with
      | some t => if t == "" then "" else " AND Type=" ++ sq ++ t ++ sq
      | none => "")

/-- The request `getStaleComputers` hands to `get` (fetch ceiling 2000). -/
def staleFetchSpec (clientId : Option Int) (typeFilter : Option String) : FetchSpec :=
  ⟨"/Computers", some (staleCondition clientId typeFilter), 2000, 1,
    some "RemoteAgentLastContact asc"⟩

/-- Post-processing of `getStaleComputers`: same algorithm as
`getOfflineComputers` (horizon `daysOld`, cap `pageSize`). -/
def getStaleComputers (now daysOld : Nat) (pageSize : Nat)
    (resp : RespData) : List Rec :=
  let cutoff := now - daysOld * 24 * 60 * 60 * 1000
  let list := unwrap resp
  ((list.filter (fun c =>
      match getField c "RemoteAgentLastContact" with
      | none => false
      | some v =>
        if truthy v then
          match parseDate v with
          | some t => decide (t < cutoff)
          | none => false
        else false)).take pageSize).map compactComputer

/-!  Client-name resolution (`getComputersByClient`). -/

/-- Result shape of `getComputersByClient`.  `noMatch` carries the error
message and the (empty) `computers` field; `ambiguous` carries the
(Id, Name) pair of every match plus the explanatory message and has no
computers field at all; `resolved` carries the Id and Name of the chosen client, `totalReturned`, and the compacted computer list. -/
inductive ByClientResult where
  | noMatch (error : String) (computers : List Rec)
  | ambiguous (multipleClientsFound : List (Option Value × Option Value)) (message : String)
  | resolved (clientId clientName : Option Value) (totalReturned : Nat) (computers : List Rec)

/-- The computers contained in a `ByClientResult` (none for the
disambiguation payload). -/
def ByClientResult.computersOf : ByClientResult → List Rec
  | .noMatch _ cs => cs
  | .ambiguous _ _ => []
  | .resolved _ _ _ cs => cs

/-- The client lookup `getComputersByClient` issues first:
`getClients` with a Name-like substring condition and page size 20. -/
def byClientLookupSpec (clientName : String) : FetchSpec :=
  ⟨"/Clients", some ("Name like " ++ sq ++ "%" ++ clientName ++ "%" ++ sq),
    20, 1, none⟩

/-- The computers fetch issued once a unique client `c` is resolved. -/
def byClientComputersSpec (c : Rec) (pageSize page : Nat)
    (orderBy : Option String) : FetchSpec :=
  ⟨"/Computers", some ("ClientId=" ++
      (match getField c "Id" with
       | some v => jsShow v
       | none => "undefined")),
    pageSize, page, orderBy⟩

/-- Resolution, `getComputersByClient` given the two responses the remote returns
(client lookup, then computers fetch; the latter is only consulted in the
unique-match case). -/
def getComputersByClient (clientName : String) (clientResp : RespData)
    (compResp : RespData) : ByClientResult :=
  let clientList := unwrap clientResp
  if clientList.length == 0 then
    .noMatch ("No clients found matching \"" ++ clientName ++ "\"") []
  else if clientList.length > 1 then
    .ambiguous
      (clientList.map (fun c => (getField c "Id", getField c "Name")))
      ("Found " ++ toString clientList.length ++ " clients matching \""
        ++ clientName
        ++ "\". Use a more specific name or pass a clientId directly to get_computers.")
  else
    match clientList with
    | [] => .noMatch ("No clients found matching \"" ++ clientName ++ "\"") []
    | c :: _ =>
      let computers := unwrap compResp
      .resolved (getField c "Id") (getField c "Name") computers.length
        (computers.map compactComputer)

/-!  Batch existence check (`batchCheckComputers`).  Each per-name lookup is
a `get` call on `/Computers` with an exact ComputerName-equality condition
and page size 5, whose outcome the remote controls, modelled as `lookup : String → Except Unit RespData`
(`Except.error` is a thrown lookup failure).  The groups-of-10 fan-out
affects only timing, not the per-name results, so the sequential fold
below is observationally faithful. -/

/-- One entry of the `results` object. -/
inductive BatchEntry where
  | foundE (computerId computerName status lastContact : Option Value)
           (client : Value) (typ : Option Value) (os : Value)
  | notFoundE
  | notFoundErrE

/-- The nested Client.Name field, falling back to a label built from
ClientId (or Unknown) as the JS nullish-coalescing chain does. -/
def clientLabel (c : Rec) : Value :=
  let fallback : Value :=
    .vStr ("Client " ++
      (match getField c "ClientId" with
       | none => "Unknown"
       | some .vNull => "Unknown"
       | some v => jsShow v))
  match getField c "Client" with
  | some (.vObj fs) =>
    match getField fs "Name" with
    | none => fallback
    | some .vNull => fallback
    | some v => v
  | _ => fallback

/-- The OperatingSystemName field, defaulting to the empty string. -/
def osLabel (c : Rec) : Value :=
  match getField c "OperatingSystemName" with
  | none => .vStr ""
  | some .vNull => .vStr ""
  | some v => v

/-- The entry recorded for one name: a thrown lookup is caught and becomes
the not-found-with-error entry; an empty result list becomes the plain
not-found entry; otherwise the fields of the first record are extracted. -/
def lookupEntry (lookup : String → Except Unit RespData) (name : String) :
    BatchEntry :=
  match lookup name with
  | .error _ => .notFoundErrE
  | .ok data =>
    match unwrap data with
    | [] => .notFoundE
    | c :: _ =>
      .foundE (getField c "Id") (getField c "ComputerName")
        (getField c "Status") (getField c "RemoteAgentLastContact")
        (clientLabel c) (getField c "Type") (osLabel c)

/-- JS object assignment `results[name] = e`: replace the first entry with
that key, or append a new one. -/
def upsert : List (String × BatchEntry) → String → BatchEntry →
    List (String × BatchEntry)
  | [], k, v => [(k, v)]
  | (k', v') :: rest, k, v =>
    if k' == k then (k, v) :: rest else (k', v') :: upsert rest k v

/-- Value stored under a key of the results object. -/
def findVal (m : List (String × BatchEntry)) (k : String) : Option BatchEntry :=
  (m.find? (fun p => p.1 == k)).map (·.2)

/-- The `results` object after the lookup loop. -/
def batchResults (lookup : String → Except Unit RespData)
    (names : List String) : List (String × BatchEntry) :=
  names.foldl (fun m n => upsert m n (lookupEntry lookup n)) []

/-- The fill loop `if (!results[name]) results[name] = {found:false}`. -/
def batchFill (names : List String) (m : List (String × BatchEntry)) :
    List (String × BatchEntry) :=
  names.foldl (fun m n =>
    match findVal m n with
    | some _ => m
    | none => upsert m n .notFoundE) m

def BatchEntry.isFound : BatchEntry → Bool
  | .foundE _ _ _ _ _ _ _ => true
  | _ => false

/-- Whether the entry was found with a status string equal to Online. -/
def BatchEntry.isOnline : BatchEntry → Bool
  | .foundE _ _ (some (.vStr s)) _ _ _ _ => s == "Online"
  | _ => false

structure BatchSummary where
  found : Nat
  notFound : Nat
  online : Nat
  offline : Nat
deriving DecidableEq

/-- Batch check, `batchCheckComputers`: the results object plus its summary. -/
def batchCheckComputers (lookup : String → Except Unit RespData)
    (names : List String) :
    List (String × BatchEntry) × BatchSummary :=
  let results := batchFill names (batchResults lookup names)
  let vals := results.map (·.2)
  let found := vals.countP (fun e => e.isFound)
  let online := vals.countP (fun e => e.isOnline)
  (results, ⟨found, names.length - found, online, found - online⟩)

/-!  Concrete fixture records used by individual claims. -/

/-- A record carrying a field outside the compaction allow-list. -/
def junkRec : Rec := [("Id", .vNum 1), ("OpenPortsTCP", .vStr "135,445")]

/-- Offline fixture: last contact two days before the fixed reference
time 1700000000000 ms. -/
def offlineFixtureA : Rec :=
  [("Id", .vNum 1), ("ComputerName", .vStr "A"),
   ("RemoteAgentLastContact", .vDate (1700000000000 - 172800000))]

/-- Offline fixture: last contact two hours before the reference time. -/
def offlineFixtureB : Rec :=
  [("Id", .vNum 2), ("ComputerName", .vStr "B"),
   ("RemoteAgentLastContact", .vDate (1700000000000 - 7200000))]

/-- Fixture with a date-valued last contact, for the provenance claim. -/
def datedRec : Rec :=
  [("Id", .vNum 3), ("RemoteAgentLastContact", .vDate 5)]

end Automate

namespace Automate

/-!  Helper lemmas. -/

lemma mem_compactComputer_keys {c : Rec} {kv : String × Value}
    (h : kv ∈ compactComputer c) : kv.1 ∈ COMPACT_FIELDS := by
  unfold compactComputer at h
  rw [List.mem_filter] at h
  simpa [List.contains, List.elem_iff] using h.2

/-!  Claim C4.  The `get` helper never emits any field-projection
parameter: every query-parameter key is one of `pageSize`, `page`,
`condition`, `orderBy`, so in particular none of the `SUMMARY_FIELDS`
(or any `options.includedFields` entry) is ever transmitted; the
aggregate-summary page fetches carry only `pageSize` and `page`. -/

/-- Claim C4: every parameter the query builder emits has one of the four
pagination/filter keys — no projection (`includedFields`) parameters are
ever sent; the unconditioned page fetch of the summary path sends exactly
`pageSize=1000&page=1`. -/
theorem c4_no_projection_params :
    (∀ cond ps pg ob kv, kv ∈ getParams cond ps pg ob →
      kv.1 ∈ (["pageSize", "page", "condition", "orderBy"] : List String))
    ∧ (∀ cond ps pg ob kv f, kv ∈ getParams cond ps pg ob →
        f ∈ SUMMARY_FIELDS → kv.1 ≠ f)
    ∧ getParams none 1000 1 none = [("pageSize", "1000"), ("page", "1")] := by
  have main : ∀ cond ps pg ob kv, kv ∈ getParams cond ps pg ob →
      kv.1 ∈ (["pageSize", "page", "condition", "orderBy"] : List String) := by
    intro cond ps pg ob kv h
    unfold getParams at h
    rcases cond with _ | c <;> rcases ob with _ | o <;>
      simp only [List.mem_append, List.mem_cons, List.not_mem_nil, or_false] at h
    · rcases h with rfl | rfl <;> simp
    · rcases h with (rfl | rfl) | h
      · simp
      · simp
      · by_cases ho : o == "" <;> simp [ho] at h <;> simp [h]
    · rcases h with (rfl | rfl) | h
      · simp
      · simp
      · by_cases hc : c == "" <;> simp [hc] at h <;> simp [h]
    · rcases h with ((rfl | rfl) | h) | h
      · simp
      · simp
      · by_cases hc : c == "" <;> simp [hc] at h <;> simp [h]
      · by_cases ho : o == "" <;> simp [ho] at h <;> simp [h]
  refine ⟨main, ?_, rfl⟩
  intro cond ps pg ob kv f hkv hf heq
  have h4 := main cond ps pg ob kv hkv
  rw [heq] at h4
  fin_cases hf <;> simp_all

/-- Witness for C4 at the first page fetch of the summary path. -/
theorem c4_witness :
    (("pageSize", "1000") : String × String).1
      ∈ (["pageSize", "page", "condition", "orderBy"] : List String) :=
  c4_no_projection_params.1 none 1000 1 none ("pageSize", "1000")
    (by rw [c4_no_projection_params.2.2]; exact List.mem_cons_self _ _)

/-!  Claim C5.  `getComputers` in compact mode filters keys down to the
allow-list only when the response is a bare array; an object-shaped
response is returned unmodified, so keys outside the allow-list survive. -/

/-- Counterexample to C5: a compact-mode `getComputers` call whose
response is an object with an `items` key returns the record unchanged,
including the key `OpenPortsTCP`, which is outside the allow-list. -/
theorem c5_counterexample :
    getComputersPost true (.obj (some [junkRec])) = .obj (some [junkRec])
    ∧ "OpenPortsTCP" ∈ junkRec.map Prod.fst
    ∧ "OpenPortsTCP" ∉ COMPACT_FIELDS := by
  refine ⟨rfl, ?_, ?_⟩ <;> decide

/-- Claim C5 as amended: compact-mode `getComputers` compacts every record
of a bare-array response (so no key outside the allow-list appears there),
but returns an object-shaped response unmodified. -/
theorem c5_amended :
    (∀ rs : List Rec, getComputersPost true (.arr rs) = .arr (rs.map compactComputer))
    ∧ (∀ (rs : List Rec) (r : Rec), r ∈ rs.map compactComputer →
        ∀ kv, kv ∈ r → kv.1 ∈ COMPACT_FIELDS)
    ∧ (∀ items, getComputersPost true (.obj items) = .obj items) := by
  refine ⟨fun rs => rfl, ?_, fun items => rfl⟩
  intro rs r hr kv hkv
  rcases List.mem_map.mp hr with ⟨c, _, rfl⟩
  exact mem_compactComputer_keys hkv

/-- Witness for the amended C5 on a concrete record. -/
theorem c5_amended_witness : ("Id" : String) ∈ COMPACT_FIELDS :=
  c5_amended.2.1 [[("Id", Value.vNum 1)]] [("Id", Value.vNum 1)]
    (by
      rw [show ([[("Id", Value.vNum 1)]].map compactComputer)
            = [[("Id", Value.vNum 1)]] from rfl]
      exact List.mem_singleton.mpr rfl)
    ("Id", Value.vNum 1) (List.mem_singleton.mpr rfl)

/-!  Claim C7: OS normalization. -/

lemma toLowerStr_ne_empty {raw : String} (h : raw ≠ "") : toLowerStr raw ≠ "" := by
  intro hc
  apply h
  have hdata := congrArg String.data hc
  simp only [toLowerStr] at hdata
  have : raw.data = [] := by
    cases hd : raw.data with
    | nil => rfl
    | cons a as => rw [hd] at hdata; simp at hdata
  cases raw with
  | mk d => simp_all

/-- Claim C7: `normaliseOS` maps the three named inputs as specified,
honors the fixed priority order (a string matching `windows server 2019`
but none of the three higher-priority patterns maps to
"Windows Server 2019"), and passes any non-empty string matching none of
the patterns through unchanged. -/
theorem c7_normaliseOS :
    normaliseOS "Microsoft Windows Server 2019 Standard" = "Windows Server 2019"
    ∧ normaliseOS "" = "Unknown"
    ∧ normaliseOS "Ubuntu 22.04.1 LTS" = "Linux"
    ∧ (∀ raw, includes (toLowerStr raw) "windows server 2019" = true →
        includes (toLowerStr raw) "windows 11" = false →
        includes (toLowerStr raw) "windows 10" = false →
        includes (toLowerStr raw) "windows server 2022" = false →
        normaliseOS raw = "Windows Server 2019")
    ∧ (∀ raw, raw ≠ "" →
        includes (toLowerStr raw) "windows 11" = false →
        includes (toLowerStr raw) "windows 10" = false →
        includes (toLowerStr raw) "windows server 2022" = false →
        includes (toLowerStr raw) "windows server 2019" = false →
        includes (toLowerStr raw) "windows server 2016" = false →
        includes (toLowerStr raw) "windows server 2012" = false →
        includes (toLowerStr raw) "windows server" = false →
        includes (toLowerStr raw) "windows" = false →
        includes (toLowerStr raw) "mac" = false →
        includes (toLowerStr raw) "darwin" = false →
        includes (toLowerStr raw) "linux" = false →
        includes (toLowerStr raw) "ubuntu" = false →
        includes (toLowerStr raw) "debian" = false →
        includes (toLowerStr raw) "centos" = false →
        includes (toLowerStr raw) "rhel" = false →
        normaliseOS raw = raw) := by
  refine ⟨by decide, by decide, by decide, ?_, ?_⟩
  · intro raw h2019 h11 h10 h2022
    unfold normaliseOS
    simp [h2019, h11, h10, h2022]
  · intro raw hne h11 h10 h2022 h2019 h2016 h2012 hws hw hmac hdar hlin hub hdeb hcen hrh
    unfold normaliseOS
    have hbe : (toLowerStr raw == "") = false :=
      beq_eq_false_iff_ne.mpr (toLowerStr_ne_empty hne)
    simp [h11, h10, h2022, h2019, h2016, h2012, hws, hw, hmac, hdar, hlin,
      hub, hdeb, hcen, hrh, hbe]

/-- Witness for C7: an unrecognized non-empty OS string passes through. -/
theorem c7_witness : normaliseOS "Solaris 11" = "Solaris 11" :=
  c7_normaliseOS.2.2.2.2 "Solaris 11" (by decide) (by decide) (by decide)
    (by decide) (by decide) (by decide) (by decide) (by decide) (by decide)
    (by decide) (by decide) (by decide) (by decide) (by decide) (by decide)
    (by decide)

/-!  Claim C6: offline detection. -/

/-- Claim C6: `getOfflineComputers` issues one request for up to 1000
records under a Status-equals-Offline condition (ANDed with a ClientId equality when
given) ordered by `RemoteAgentLastContact asc`, then keeps exactly the
fetched records whose last-contact timestamp is strictly before
`now - daysOffline` days, truncated to the cap and compacted; on the
two-days-ago / two-hours-ago fixture with `daysOffline = 1` only the
two-days-ago record is returned. -/
theorem c6_offline_detection : ∀ (now days cap : Nat) (cid : Option Int) (resp : RespData),
    offlineFetchSpec cid
      = ⟨"/Computers", some (offlineCondition cid), 1000, 1,
          some "RemoteAgentLastContact asc"⟩
    ∧ offlineCondition none = "Status=" ++ sq ++ "Offline" ++ sq
    ∧ (∀ n : Int, offlineCondition (some n)
        = "Status=" ++ sq ++ "Offline" ++ sq ++ " AND ClientId=" ++ toString n)
    ∧ getOfflineComputers now days cap resp
        = (((unwrap resp).filter
              (lastContactFilter (now - days * 24 * 60 * 60 * 1000))).take cap).map
            compactComputer
    ∧ (∀ (c : Rec) (t : Nat),
        getField c "RemoteAgentLastContact" = some (.vDate t) →
        (lastContactFilter (now - days * 24 * 60 * 60 * 1000) c = true
          ↔ t < now - days * 24 * 60 * 60 * 1000))
    ∧ getOfflineComputers 1700000000000 1 100 (.arr [offlineFixtureA, offlineFixtureB])
        = [compactComputer offlineFixtureA] := by
  intro now days cap cid resp
  refine ⟨rfl, rfl, fun n => rfl, rfl, ?_, rfl⟩
  intro c t hf
  unfold lastContactFilter
  rw [hf]
  simp [truthy, parseDate]

/-- Witness for C6: the date filter on a concrete record with a concrete
cutoff. -/
theorem c6_witness :
    lastContactFilter (1700000000000 - 1 * 24 * 60 * 60 * 1000) datedRec = true :=
  ((c6_offline_detection 1700000000000 1 0 none .nullResp).2.2.2.2.1 datedRec 5
    rfl).mpr (by decide)

/-!  Claim C10: records with an absent, null, or otherwise falsy (or
unparseable) `RemoteAgentLastContact` never appear in the output of
`getOfflineComputers` or `getStaleComputers`. -/

lemma offline_shape_provenance {cutoff cap : Nat} {l : List Rec} {r : Rec}
    (h : r ∈ ((l.filter (fun c =>
        match getField c "RemoteAgentLastContact" with
        | none => false
        | some v =>
          if truthy v then
            match parseDate v with
            | some t => decide (t < cutoff)
            | none => false
          else false)).take cap).map compactComputer) :
    ∃ c, c ∈ l ∧ r = compactComputer c
      ∧ ∃ v, getField c "RemoteAgentLastContact" = some v ∧ truthy v = true
        ∧ ∃ t, parseDate v = some t ∧ t < cutoff := by
  rcases List.mem_map.mp h with ⟨c, hc, rfl⟩
  have hcf := List.mem_of_mem_take hc
  rw [List.mem_filter] at hcf
  refine ⟨c, hcf.1, rfl, ?_⟩
  have hp := hcf.2
  cases hg : getField c "RemoteAgentLastContact" with
  | none => simp [hg] at hp
  | some v =>
    simp only [hg] at hp
    cases ht : truthy v with
    | false => simp [ht] at hp
    | true =>
      simp only [ht, if_true] at hp
      cases hd : parseDate v with
      | none => simp [hd] at hp
      | some t =>
        simp only [hd, decide_eq_true_eq] at hp
        exact ⟨v, rfl, ht, t, hd, hp⟩

/-- Claim C10: every record returned by `getOfflineComputers` or
`getStaleComputers` is the compaction of a fetched record whose
`RemoteAgentLastContact` field is present, truthy, and a parseable date
before the cutoff — records with an absent, null, or otherwise falsy
last-contact field are always excluded by the client-side filter. -/
theorem c10_falsy_last_contact_excluded :
    ∀ (now days cap : Nat) (resp : RespData) (r : Rec),
    (r ∈ getOfflineComputers now days cap resp →
      ∃ c, c ∈ unwrap resp ∧ r = compactComputer c
        ∧ ∃ v, getField c "RemoteAgentLastContact" = some v ∧ truthy v = true
          ∧ ∃ t, parseDate v = some t ∧ t < now - days * 24 * 60 * 60 * 1000)
    ∧ (r ∈ getStaleComputers now days cap resp →
      ∃ c, c ∈ unwrap resp ∧ r = compactComputer c
        ∧ ∃ v, getField c "RemoteAgentLastContact" = some v ∧ truthy v = true
          ∧ ∃ t, parseDate v = some t ∧ t < now - days * 24 * 60 * 60 * 1000) := by
  intro now days cap resp r
  exact ⟨fun h => offline_shape_provenance h, fun h => offline_shape_provenance h⟩

/-- Witness for C10 on a concrete one-record fetch. -/
theorem c10_witness :
    ∃ c, c ∈ unwrap (.arr [datedRec]) ∧ compactComputer datedRec = compactComputer c
      ∧ ∃ v, getField c "RemoteAgentLastContact" = some v ∧ truthy v = true
        ∧ ∃ t, parseDate v = some t ∧ t < 100 - 0 * 24 * 60 * 60 * 1000 :=
  (c10_falsy_last_contact_excluded 100 0 5 (.arr [datedRec])
      (compactComputer datedRec)).1
    (by
      rw [show getOfflineComputers 100 0 5 (.arr [datedRec])
            = [compactComputer datedRec] from rfl]
      exact List.mem_singleton.mpr rfl)

/-!  Claim C3: pagination.  The loop always issues `⌊N/1000⌋ + 1` requests
(pages 1, 2, …): it only stops after observing a page of fewer than 1000
items, so when `N` is a multiple of 1000 (N = 0 included) one request
beyond `⌈N/1000⌉` is needed to observe the short (empty) final page. -/

lemma getAllPagesAux_pages : ∀ (fuel : Nat) (records : List Rec) (k : Nat)
    (acc : List Rec) (pacc : List Nat),
    (records.length - k * 1000) / 1000 < fuel →
    getAllPagesAux (pageOf records) fuel (k + 1) acc pacc
      = some (acc ++ records.drop (k * 1000),
              pacc ++ List.range' (k + 1) ((records.length - k * 1000) / 1000 + 1)) := by
  intro fuel
  induction fuel with
  | zero => intro records k acc pacc h; omega
  | succ fuel ih =>
    intro records k acc pacc h
    have hitems : pageOf records (k + 1) = (records.drop (k * 1000)).take 1000 := by
      simp [pageOf]
    have hlen : (records.drop (k * 1000)).length = records.length - k * 1000 :=
      List.length_drop _ _
    rw [getAllPagesAux, hitems]
    by_cases hshort : (records.drop (k * 1000)).length < 1000
    · have htk : ((records.drop (k * 1000)).take 1000).length < 1000 := by
        rw [List.length_take]; omega
      rw [if_pos htk]
      have hall : (records.drop (k * 1000)).take 1000 = records.drop (k * 1000) :=
        List.take_of_length_le (by omega)
      have hdiv : (records.length - k * 1000) / 1000 = 0 := by omega
      rw [hall, hdiv, List.range'_one]
    · have htk : ¬ ((records.drop (k * 1000)).take 1000).length < 1000 := by
        rw [List.length_take]; omega
      rw [if_neg htk]
      have ihh := ih records (k + 1) (acc ++ (records.drop (k * 1000)).take 1000)
        (pacc ++ [k + 1]) (by omega)
      rw [ihh]
      congr 1
      have hdropdrop : records.drop ((k + 1) * 1000)
          = (records.drop (k * 1000)).drop 1000 := by
        rw [List.drop_drop, show k * 1000 + 1000 = (k + 1) * 1000 from by ring]
      have hq : (records.length - k * 1000) / 1000
          = (records.length - (k + 1) * 1000) / 1000 + 1 := by omega
      congr 1
      · rw [hdropdrop, List.append_assoc, List.take_append_drop]
      · rw [hq, List.range'_succ, List.append_assoc]
        rfl

/-- Counterexample to C3: with N = 0 records the loop still issues one
request (for page 1, which returns the short empty page), whereas the
formula of the claim predicts zero requests (ceiling of N/1000). -/
theorem c3_counterexample :
    getAllPages (pageOf []) 1 = some ([], [1])
    ∧ ([1] : List Nat).length ≠ (0 + 1000 - 1) / 1000 := by
  exact ⟨rfl, by decide⟩

/-- Claim C3 as amended: for a dataset of N records served in 1000-sized
pages, `getAllPages` requests pages 1, 2, … of size 1000, stops at the
first page with fewer than 1000 items, returns all N records in order,
and issues exactly `⌊N/1000⌋ + 1` requests — which equals `⌈N/1000⌉`
except when N is a multiple of 1000 (N = 0 included), where one extra
request observes the short final page. -/
theorem c3_amended : ∀ (records : List Rec) (fuel : Nat),
    records.length / 1000 < fuel →
    getAllPages (pageOf records) fuel
      = some (records, List.range' 1 (records.length / 1000 + 1))
    ∧ (records.length % 1000 ≠ 0 →
        records.length / 1000 + 1 = (records.length + 1000 - 1) / 1000) := by
  intro records fuel h
  constructor
  · have hmain := getAllPagesAux_pages fuel records 0 [] [] (by omega)
    simpa [getAllPages] using hmain
  · intro hmod
    omega

/-- Witness for the amended C3 at N = 2500: three requests, pages 1-3,
all 2500 records returned in order. -/
theorem c3_witness :
    getAllPages (pageOf (List.replicate 2500 ([] : Rec))) 3
      = some (List.replicate 2500 ([] : Rec), List.range' 1 3) := by
  have h := (c3_amended (List.replicate 2500 ([] : Rec)) 3
    (by rw [List.length_replicate]; decide)).1
  rw [List.length_replicate] at h
  norm_num at h
  exact h

/-!  Claims C1 and C2: token manager and request gateway. -/

lemma ensureAuthenticated_ok_valid {a : Except String String} {now : Nat}
    {st st' : ClientState} {evs : List Ev}
    (h : ensureAuthenticated a now st = .ok (st', evs)) :
    (∃ tok, st'.accessToken = some tok)
    ∧ (∃ e, st'.tokenExpiry = some e ∧ now < e) := by
  unfold ensureAuthenticated at h
  by_cases hf : tokenFresh st now
  · rw [if_pos hf] at h
    cases h
    unfold tokenFresh at hf
    rcases st with ⟨tk, ex⟩
    rcases tk with _ | tok <;> rcases ex with _ | e <;> simp at hf
    exact ⟨⟨tok, rfl⟩, e, rfl, hf.2⟩
  · rw [if_neg hf] at h
    unfold authenticate at h
    cases a with
    | error e => simp at h
    | ok tok =>
      simp at h
      rcases h with ⟨h1, _⟩
      rw [← h1]
      exact ⟨⟨tok, rfl⟩, now + 55 * 60 * 1000, rfl, by omega⟩

lemma ensureAuthenticated_ok_evs {a : Except String String} {now : Nat}
    {st st' : ClientState} {evs : List Ev}
    (h : ensureAuthenticated a now st = .ok (st', evs)) :
    evs = [] ∨ (evs = [Ev.auth] ∧ st'.tokenExpiry = some (now + 55 * 60 * 1000)) := by
  unfold ensureAuthenticated at h
  by_cases hf : tokenFresh st now
  · rw [if_pos hf] at h
    cases h
    exact Or.inl rfl
  · rw [if_neg hf] at h
    unfold authenticate at h
    cases a with
    | error e => simp at h
    | ok tok =>
      simp at h
      rcases h with ⟨h1, h2⟩
      exact Or.inr ⟨h2.symm, by rw [← h1]⟩

lemma resubmit_sends {server : Nat → HttpResp} {a : Except String String}
    {now : Nat} {st : ClientState} {r : Except ReqError Value}
    {st' : ClientState} {evs : List Ev}
    (h : resubmit server a now st = (r, st', evs)) :
    ∀ tok e, Ev.send tok e ∈ evs → now < e := by
  unfold resubmit at h
  cases hE : ensureAuthenticated a now st with
  | error msg => rw [hE] at h; cases h; intro tok e hm; simp at hm
  | ok p =>
    rcases p with ⟨st1, ev1⟩
    rw [hE] at h
    rcases ensureAuthenticated_ok_valid hE with ⟨_, e1, he1, hlt⟩
    have hgd : st1.tokenExpiry.getD 0 = e1 := by rw [he1]; rfl
    have hev := ensureAuthenticated_ok_evs hE
    intro tok e hm
    cases hs : server 1 with
    | ok v =>
      rw [hs] at h
      cases h
      rcases List.mem_append.mp hm with hm1 | hm2
      · rcases hev with hev | ⟨hev, _⟩ <;> rw [hev] at hm1 <;> simp at hm1
      · simp only [List.mem_singleton, Ev.send.injEq] at hm2
        rw [hm2.2, hgd]
        exact hlt
    | errStatus s =>
      rw [hs] at h
      cases h
      rcases List.mem_append.mp hm with hm1 | hm2
      · rcases hev with hev | ⟨hev, _⟩ <;> rw [hev] at hm1 <;> simp at hm1
      · simp only [List.mem_singleton, Ev.send.injEq] at hm2
        rw [hm2.2, hgd]
        exact hlt

lemma runRequest_sends {server : Nat → HttpResp} {a : Except String String}
    {now : Nat} {st : ClientState} {r : Except ReqError Value}
    {st' : ClientState} {evs : List Ev}
    (h : runRequest server a now st = (r, st', evs)) :
    ∀ tok e, Ev.send tok e ∈ evs → now < e := by
  unfold runRequest at h
  cases hE : ensureAuthenticated a now st with
  | error msg => rw [hE] at h; cases h; intro tok e hm; simp at hm
  | ok p =>
    rcases p with ⟨st1, ev1⟩
    rw [hE] at h
    rcases ensureAuthenticated_ok_valid hE with ⟨_, e1, he1, hlt⟩
    have hgd : st1.tokenExpiry.getD 0 = e1 := by rw [he1]; rfl
    have hev := ensureAuthenticated_ok_evs hE
    have hev1 : ∀ tok e, Ev.send tok e ∈ ev1 → False := by
      intro tok e hm1
      rcases hev with hev | ⟨hev, _⟩ <;> rw [hev] at hm1 <;> simp at hm1
    intro tok e hm
    cases hs : server 0 with
    | ok v =>
      rw [hs] at h
      cases h
      rcases List.mem_append.mp hm with hm1 | hm2
      · exact absurd hm1 (fun hx => hev1 _ _ hx)
      · simp only [List.mem_singleton, Ev.send.injEq] at hm2
        rw [hm2.2, hgd]
        exact hlt
    | errStatus s =>
      rw [hs] at h
      dsimp only at h
      by_cases h401 : s = 401
      · rw [if_pos h401] at h
        cases hA : authenticate a now with
        | error msg =>
          rw [hA] at h
          cases h
          rcases List.mem_append.mp hm with hm1 | hm2
          · exact absurd hm1 (fun hx => hev1 _ _ hx)
          · simp only [List.mem_cons, List.not_mem_nil, or_false,
              Ev.send.injEq] at hm2
            rcases hm2 with hm2 | hm2 | hm2
            · rw [hm2.2, hgd]; exact hlt
            · cases hm2
            · cases hm2
        | ok st2 =>
          rw [hA] at h
          cases h
          rcases List.mem_append.mp hm with hm12 | hm3
          · rcases List.mem_append.mp hm12 with hm1 | hm2
            · exact absurd hm1 (fun hx => hev1 _ _ hx)
            · simp only [List.mem_cons, List.not_mem_nil, or_false,
                Ev.send.injEq] at hm2
              rcases hm2 with hm2 | hm2 | hm2
              · rw [hm2.2, hgd]; exact hlt
              · cases hm2
              · cases hm2
          · exact resubmit_sends rfl tok e hm3
      · rw [if_neg h401] at h
        cases h
        rcases List.mem_append.mp hm with hm1 | hm2
        · exact absurd hm1 (fun hx => hev1 _ _ hx)
        · simp only [List.mem_singleton, Ev.send.injEq] at hm2
          rw [hm2.2, hgd]
          exact hlt

/-- Claim C2: `ensureAuthenticated` runs before every dispatch; when it
returns, a token exists and its recorded expiry is strictly in the
future; a fresh login (the `[auth]` event) records expiry as login time
plus 55 minutes; and every dispatch the gateway performs carries a
token whose recorded expiry is strictly after the dispatch time. -/
theorem c2_token_invariant : ∀ (a : Except String String) (now : Nat) (st : ClientState),
    (∀ st' evs, ensureAuthenticated a now st = .ok (st', evs) →
      ((∃ tok, st'.accessToken = some tok)
        ∧ (∃ e, st'.tokenExpiry = some e ∧ now < e))
      ∧ (evs = [Ev.auth] → st'.tokenExpiry = some (now + 55 * 60 * 1000)))
    ∧ (∀ (server : Nat → HttpResp) r st' evs,
        runRequest server a now st = (r, st', evs) →
        ∀ tok e, Ev.send tok e ∈ evs → now < e) := by
  intro a now st
  constructor
  · intro st' evs h
    refine ⟨ensureAuthenticated_ok_valid h, ?_⟩
    intro hevs
    rcases ensureAuthenticated_ok_evs h with hev | ⟨_, he⟩
    · rw [hev] at hevs; cases hevs
    · exact he
  · intro server r st' evs h
    exact runRequest_sends h

/-- Witness for C2: a client with no cached token performs a fresh login
whose recorded expiry is 55 minutes after the (zero) login time. -/
theorem c2_witness :
    ∃ e, (ClientState.mk (some "tok") (some (0 + 55 * 60 * 1000))).tokenExpiry
        = some e ∧ 0 < e :=
  (((c2_token_invariant (.ok "tok") 0 ⟨none, none⟩).1
      ⟨some "tok", some (0 + 55 * 60 * 1000)⟩ [Ev.auth] rfl).1).2

/-- Claim C1: a request with a fresh token that is answered 401 triggers
exactly the trace [dispatch, credential clear, one re-authentication,
one resubmission]; the outcome of the resubmission is surfaced verbatim, so a
second 401 propagates as the terminal error with no further retry. -/
theorem c1_retry_once :
    ∀ (server : Nat → HttpResp) (now : Nat) (t newTok : String) (e : Nat),
    t ≠ "" → newTok ≠ "" → now < e → server 0 = .errStatus 401 →
    (runRequest server (.ok newTok) now ⟨some t, some e⟩).2.2
      = [Ev.send t e, Ev.clearCreds, Ev.auth,
         Ev.send newTok (now + 55 * 60 * 1000)]
    ∧ (∀ v, server 1 = .ok v →
        (runRequest server (.ok newTok) now ⟨some t, some e⟩).1 = .ok v)
    ∧ (∀ s, server 1 = .errStatus s →
        (runRequest server (.ok newTok) now ⟨some t, some e⟩).1
          = .error (.httpError s))
    ∧ (server 1 = .errStatus 401 →
        (runRequest server (.ok newTok) now ⟨some t, some e⟩).1
          = .error (.httpError 401)) := by
  intro server now t newTok e ht hnt he h0
  have hFresh : tokenFresh ⟨some t, some e⟩ now = true := by
    simp [tokenFresh, ht, he]
  have hE1 : ensureAuthenticated (.ok newTok) now ⟨some t, some e⟩
      = .ok (⟨some t, some e⟩, []) := by
    simp [ensureAuthenticated, hFresh]
  have hFresh2 : tokenFresh ⟨some newTok, some (now + 55 * 60 * 1000)⟩ now = true := by
    simp [tokenFresh, hnt]
  have hE2 : ensureAuthenticated (.ok newTok) now
      ⟨some newTok, some (now + 55 * 60 * 1000)⟩
      = .ok (⟨some newTok, some (now + 55 * 60 * 1000)⟩, []) := by
    simp [ensureAuthenticated, hFresh2]
  have hkey : runRequest server (.ok newTok) now ⟨some t, some e⟩
      = ((match server 1 with
          | .ok v => .ok v
          | .errStatus s => .error (.httpError s)),
         ⟨some newTok, some (now + 55 * 60 * 1000)⟩,
         [Ev.send t e, Ev.clearCreds, Ev.auth,
          Ev.send newTok (now + 55 * 60 * 1000)]) := by
    unfold runRequest
    rw [hE1, h0]
    dsimp only
    rw [if_pos rfl]
    unfold authenticate resubmit
    dsimp only
    rw [hE2]
    cases server 1 <;> rfl
  refine ⟨?_, ?_, ?_, ?_⟩
  · rw [hkey]
  · intro v hs; rw [hkey, hs]
  · intro s hs; rw [hkey, hs]
  · intro hs; rw [hkey, hs]

/-- Witness for C1: both submissions denied with 401 — one clear, one
re-auth, one resubmission, and the terminal 401 error. -/
theorem c1_witness :
    (runRequest (fun _ => .errStatus 401) (.ok "b") 0 ⟨some "a", some 1⟩).2.2
      = [Ev.send "a" 1, Ev.clearCreds, Ev.auth, Ev.send "b" (0 + 55 * 60 * 1000)]
    ∧ (runRequest (fun _ => .errStatus 401) (.ok "b") 0 ⟨some "a", some 1⟩).1
      = .error (.httpError 401) := by
  have h := c1_retry_once (fun _ => .errStatus 401) 0 "a" "b" 1
    (by decide) (by decide) (by decide) rfl
  exact ⟨h.1, h.2.2.2 rfl⟩

/-!  Claim C8: client-name resolution trichotomy. -/

/-- Claim C8: the resolution issues a Name-like substring lookup capped
at 20 matches, then: zero matches yields the not-found result with an
empty computer list; two or more matches yields the disambiguation
result listing every (Id, Name) pair plus the explanatory message, with
no computers; exactly one match proceeds to the computers of that client in
compact form. -/
theorem c8_client_resolution :
    ∀ (name : String) (cResp compResp : RespData),
    byClientLookupSpec name
      = ⟨"/Clients", some ("Name like " ++ sq ++ "%" ++ name ++ "%" ++ sq),
          20, 1, none⟩
    ∧ (unwrap cResp = [] →
        getComputersByClient name cResp compResp
          = .noMatch ("No clients found matching \"" ++ name ++ "\"") []
        ∧ (getComputersByClient name cResp compResp).computersOf = [])
    ∧ (2 ≤ (unwrap cResp).length →
        getComputersByClient name cResp compResp
          = .ambiguous
              ((unwrap cResp).map (fun c => (getField c "Id", getField c "Name")))
              ("Found " ++ toString (unwrap cResp).length ++ " clients matching \""
                ++ name
                ++ "\". Use a more specific name or pass a clientId directly to get_computers.")
        ∧ (getComputersByClient name cResp compResp).computersOf = [])
    ∧ (∀ c, unwrap cResp = [c] →
        getComputersByClient name cResp compResp
          = .resolved (getField c "Id") (getField c "Name")
              (unwrap compResp).length ((unwrap compResp).map compactComputer)) := by
  intro name cResp compResp
  refine ⟨rfl, ?_, ?_, ?_⟩
  · intro h0
    constructor
    · unfold getComputersByClient
      rw [h0]
      rfl
    · unfold getComputersByClient
      rw [h0]
      rfl
  · intro h2
    have hz : ((unwrap cResp).length == 0) = false :=
      beq_eq_false_iff_ne.mpr (by omega)
    have hgt : (unwrap cResp).length > 1 := by omega
    have hmain : getComputersByClient name cResp compResp
        = .ambiguous
            ((unwrap cResp).map (fun c => (getField c "Id", getField c "Name")))
            ("Found " ++ toString (unwrap cResp).length ++ " clients matching \""
              ++ name
              ++ "\". Use a more specific name or pass a clientId directly to get_computers.") := by
      unfold getComputersByClient
      dsimp only
      rw [hz, if_neg Bool.false_ne_true, if_pos hgt]
    exact ⟨hmain, by rw [hmain]; rfl⟩
  · intro c h1
    unfold getComputersByClient
    rw [h1]
    rfl

/-- Witness for C8: zero matches on a concrete lookup. -/
theorem c8_witness :
    getComputersByClient "acme" (.arr []) .nullResp
      = .noMatch "No clients found matching \"acme\"" [] :=
  ((c8_client_resolution "acme" (.arr []) .nullResp).2.1 rfl).1

/-!  Claim C9: batch existence check absorbs per-name lookup failures. -/

lemma findVal_upsert_self (m : List (String × BatchEntry)) (k : String)
    (v : BatchEntry) : findVal (upsert m k v) k = some v := by
  induction m with
  | nil => simp [upsert, findVal]
  | cons p rest ih =>
    rcases p with ⟨k', v'⟩
    by_cases hk : k' == k
    · simp [upsert, hk, findVal]
    · simp only [upsert, hk, if_false, Bool.false_eq_true]
      rw [findVal, List.find?]
      simp only [hk]
      exact ih

lemma findVal_upsert_ne (m : List (String × BatchEntry)) (k' k : String)
    (v : BatchEntry) (h : k' ≠ k) : findVal (upsert m k' v) k = findVal m k := by
  induction m with
  | nil => simp [upsert, findVal, List.find?, beq_eq_false_iff_ne.mpr h]
  | cons p rest ih =>
    rcases p with ⟨k0, v0⟩
    by_cases hk : k0 == k'
    · have hk0 : (k0 == k) = false := by
        rw [beq_iff_eq] at hk
        exact beq_eq_false_iff_ne.mpr (hk ▸ h)
      simp only [upsert, hk, if_true]
      rw [findVal, findVal, List.find?, List.find?]
      simp only [beq_eq_false_iff_ne.mpr h, hk0]
    · simp only [upsert, hk, if_false, Bool.false_eq_true]
      rw [findVal, findVal, List.find?, List.find?]
      by_cases hk0 : k0 == k
      · simp [hk0]
      · simp only [hk0]
        exact ih

lemma findVal_fold (g : String → BatchEntry) :
    ∀ (names : List String) (m : List (String × BatchEntry)) (k : String),
    findVal (names.foldl (fun m n => upsert m n (g n)) m) k
      = if k ∈ names then some (g k) else findVal m k := by
  intro names
  induction names with
  | nil => intro m k; simp
  | cons n rest ih =>
    intro m k
    rw [List.foldl_cons, ih]
    by_cases hk : k ∈ rest
    · rw [if_pos hk, if_pos (List.mem_cons_of_mem n hk)]
    · rw [if_neg hk]
      by_cases hkn : k = n
      · subst hkn
        rw [if_pos (List.mem_cons_self k rest), findVal_upsert_self]
      · rw [findVal_upsert_ne m n k (g n) (fun hx => hkn (hx ▸ rfl)),
          if_neg (by simp [hkn, hk])]

lemma batchFill_of_total (names : List String)
    (m : List (String × BatchEntry))
    (h : ∀ n ∈ names, (findVal m n).isSome) : batchFill names m = m := by
  unfold batchFill
  induction names with
  | nil => rfl
  | cons n rest ih =>
    rw [List.foldl_cons]
    have hn := h n (List.mem_cons_self n rest)
    cases hv : findVal m n with
    | none => simp [hv] at hn
    | some e =>
      dsimp only
      exact ih (fun n' hn' => h n' (List.mem_cons_of_mem n hn'))

lemma length_upsert_le (m : List (String × BatchEntry)) (k : String)
    (v : BatchEntry) : (upsert m k v).length ≤ m.length + 1 := by
  induction m with
  | nil => simp [upsert]
  | cons p rest ih =>
    rcases p with ⟨k', v'⟩
    by_cases hk : k' == k
    · simp [upsert, hk]
    · simp only [upsert, hk, if_false, Bool.false_eq_true, List.length_cons]
      omega

lemma length_fold_le (g : String → BatchEntry) :
    ∀ (names : List String) (m : List (String × BatchEntry)),
    (names.foldl (fun m n => upsert m n (g n)) m).length
      ≤ m.length + names.length := by
  intro names
  induction names with
  | nil => intro m; simp
  | cons n rest ih =>
    intro m
    rw [List.foldl_cons]
    calc (rest.foldl (fun m n => upsert m n (g n)) (upsert m n (g n))).length
        ≤ (upsert m n (g n)).length + rest.length := ih _
      _ ≤ m.length + 1 + rest.length := by
          have := length_upsert_le m n (g n)
          omega
      _ = m.length + (n :: rest).length := by simp; omega

/-- Claim C9: for every input list of names, each name has a result entry
(the entry its own lookup produced); a name whose lookup throws gets the
not-found-with-error entry rather than failing the batch; and the summary
is complete: found + notFound equals the number of input names and
online + offline equals found. -/
theorem c9_batch_absorbs_failures :
    ∀ (lookup : String → Except Unit RespData) (names : List String),
    (∀ name ∈ names,
      findVal (batchCheckComputers lookup names).1 name
        = some (lookupEntry lookup name))
    ∧ (∀ name ∈ names, ∀ err, lookup name = .error err →
        findVal (batchCheckComputers lookup names).1 name
          = some .notFoundErrE)
    ∧ (batchCheckComputers lookup names).2.found
        + (batchCheckComputers lookup names).2.notFound = names.length
    ∧ (batchCheckComputers lookup names).2.online
        + (batchCheckComputers lookup names).2.offline
        = (batchCheckComputers lookup names).2.found := by
  intro lookup names
  have hres : ∀ name ∈ names,
      findVal (batchResults lookup names) name = some (lookupEntry lookup name) := by
    intro name hn
    rw [batchResults, findVal_fold (lookupEntry lookup) names [] name, if_pos hn]
  have htotal : ∀ n ∈ names, (findVal (batchResults lookup names) n).isSome := by
    intro n hn
    rw [hres n hn]
    rfl
  have hfill : batchFill names (batchResults lookup names) = batchResults lookup names :=
    batchFill_of_total names _ htotal
  have hkey : batchCheckComputers lookup names
      = (batchResults lookup names,
         ⟨((batchResults lookup names).map (·.2)).countP (fun e => e.isFound),
          names.length
            - ((batchResults lookup names).map (·.2)).countP (fun e => e.isFound),
          ((batchResults lookup names).map (·.2)).countP (fun e => e.isOnline),
          ((batchResults lookup names).map (·.2)).countP (fun e => e.isFound)
            - ((batchResults lookup names).map (·.2)).countP (fun e => e.isOnline)⟩) := by
    unfold batchCheckComputers
    dsimp only
    rw [hfill]
  have hfound_le : ((batchResults lookup names).map (·.2)).countP
      (fun e => e.isFound) ≤ names.length := by
    calc ((batchResults lookup names).map (·.2)).countP (fun e => e.isFound)
        ≤ ((batchResults lookup names).map (·.2)).length :=
          List.countP_le_length _
      _ = (batchResults lookup names).length := List.length_map _ _
      _ ≤ names.length := by
          rw [batchResults]
          have := length_fold_le (lookupEntry lookup) names []
          simpa using this
  have honline_le : ((batchResults lookup names).map (·.2)).countP
      (fun e => e.isOnline)
      ≤ ((batchResults lookup names).map (·.2)).countP
          (fun e => e.isFound) := by
    apply List.countP_mono_left
    intro e _ he
    cases e with
    | foundE a b c d f g o => rfl
    | notFoundE => cases he
    | notFoundErrE => cases he
  refine ⟨?_, ?_, ?_, ?_⟩
  · intro name hn
    rw [hkey]
    exact hres name hn
  · intro name hn err herr
    rw [hkey]
    rw [hres name hn]
    unfold lookupEntry
    rw [herr]
  · rw [hkey]
    dsimp only
    omega
  · rw [hkey]
    dsimp only
    omega

/-- Witness for C9: a single name whose lookup throws still yields a
result entry marked not-found-with-error. -/
theorem c9_witness :
    findVal (batchCheckComputers (fun _ => .error ()) ["PC1"]).1 "PC1"
      = some BatchEntry.notFoundErrE :=
  (c9_batch_absorbs_failures (fun _ => .error ()) ["PC1"]).2.1 "PC1"
    (List.mem_singleton.mpr rfl) () rfl

end Automate
